import Mathlib

/-!
Verification of the khiem2105/jax repository: a shallow embedding of the
notebook snippets (JIT tracing examples, PRNG key discipline, vectorized
convolution, Haiku linear/stateful modules) and of the build-rule file,
with theorems settling the specification's claims about them.
-/

namespace JaxSpec

/-! ## Threefry-2x32 counter-based PRNG

The notebooks consume `jax.random`; its key type and `split` are exercised
with recorded outputs (`PRNGKey(42)` prints `[0 42]`; `random.split(key)`
prints new key `[2465931498 3679230171]` and subkey `[255383827 267815257]`).
Modelled from the spec: the repository's own sources only call the external
generator, so we model it by JAX's Threefry-2x32 counter-based cipher; the
model reproduces the recorded transcript values exactly, grounding it in the
repository's data. Words are `Nat` reduced modulo `2 ^ 32`. -/

def M32 : Nat := 2 ^ 32

/-- Rotate a 32-bit word left by `d` bits. -/
def rotl32 (x d : Nat) : Nat := ((x <<< d) ||| (x >>> (32 - d))) % M32

/-- One Threefry mixing round on a pair of 32-bit words. -/
def thfRound (x : Nat × Nat) (r : Nat) : Nat × Nat :=
  let v0 := (x.1 + x.2) % M32
  let v1 := rotl32 x.2 r
  (v0, Nat.xor v0 v1)

/-- Apply a group of mixing rounds. -/
def thfRounds (x : Nat × Nat) (rs : List Nat) : Nat × Nat := rs.foldl thfRound x

def rotationsA : List Nat := [13, 15, 26, 6]

def rotationsB : List Nat := [17, 29, 16, 24]

/-- The Threefry-2x32 block cipher (20 rounds) on one counter pair. -/
def threefry2x32Pair (k0 k1 x0 x1 : Nat) : Nat × Nat :=
  let ks0 := k0 % M32
  let ks1 := k1 % M32
  let ks2 := Nat.xor (Nat.xor ks0 ks1) 0x1BD11BDA
  let x1p := ((x0 + ks0) % M32, (x1 + ks1) % M32)
  let x2p := thfRounds x1p rotationsA
  let x3p := ((x2p.1 + ks1) % M32, (x2p.2 + ks2 + 1) % M32)
  let x4p := thfRounds x3p rotationsB
  let x5p := ((x4p.1 + ks2) % M32, (x4p.2 + ks0 + 2) % M32)
  let x6p := thfRounds x5p rotationsA
  let x7p := ((x6p.1 + ks0) % M32, (x6p.2 + ks1 + 3) % M32)
  let x8p := thfRounds x7p rotationsB
  let x9p := ((x8p.1 + ks1) % M32, (x8p.2 + ks2 + 4) % M32)
  let xAp := thfRounds x9p rotationsA
  ((xAp.1 + ks2) % M32, (xAp.2 + ks0 + 5) % M32)

/-- Threefry `threefry_2x32` applied to a list of counters: pad to even length, split
in halves, run the cipher elementwise on the paired halves, concatenate the
two output halves, and drop the padding word again. -/
def threefry2x32 (key : Nat × Nat) (counts : List Nat) : List Nat :=
  let odd := counts.length % 2 = 1
  let cs := if odd then counts ++ [0] else counts
  let h := cs.length / 2
  let pairs := List.zipWith (fun a b => threefry2x32Pair key.1 key.2 a b)
    (cs.take h) (cs.drop h)
  let out := pairs.map Prod.fst ++ pairs.map Prod.snd
  if odd then out.take (out.length - 1) else out

/-- A PRNG key is an array of shape `(2,)`: the seed's high and low 32-bit
words, so `PRNGKey 42 = [0, 42]` as recorded in the transcript. -/
def PRNGKey (seed : Nat) : List Nat := [seed / 2 ^ 32 % 2 ^ 32, seed % 2 ^ 32]

/-- View a shape-`(2,)` key array as a word pair. -/
def keyPair (key : List Nat) : Nat × Nat := (key.getD 0 0, key.getD 1 0)

/-- Group a flat word list into consecutive pairs (`reshape (num, 2)`). -/
def chunk2 : List Nat → List (List Nat)
  | a :: b :: rest => [a, b] :: chunk2 rest
  | _ => []

/-- Key splitting `random.split key num`: run the cipher over the counters `0 .. 2*num-1`
and reshape the resulting words into `num` keys of shape `(2,)`. -/
def randomSplit (key : List Nat) (num : Nat) : List (List Nat) :=
  chunk2 (threefry2x32 (keyPair key) (List.range (2 * num)))

/-- Modelled from the spec: `random.normal` is external; the spec states a
sampling operation is a deterministic function of the key that consumes but
never mutates it. We model the sample of shape `(n,)` by the words of the
underlying Threefry bit stream for `n` counters (the float conversion of the
external framework is outside the embedding). -/
def normalBits (key : List Nat) (n : Nat) : List Nat :=
  threefry2x32 (keyPair key) (List.range n)

/-- A scalar `random.normal key` sample, modelled by its single bit word. -/
def normalSample (key : List Nat) : Nat := (normalBits key 1).getD 0 0

/-- Modelled from the spec: a call of `random.normal` consumes the key and
never mutates it, so the call returns the sample together with the key value
as it stands after the call (unchanged). -/
def randomNormalCall (key : List Nat) : Nat × List Nat := (normalSample key, key)

/-- The `print(random.normal(key)); print(random.normal(key))` cell: two
sampling calls in sequence, each reading the key left by the previous call;
returns both printed samples and the final key value. -/
def runTwoNormalCalls (key : List Nat) : Nat × Nat × List Nat :=
  let c1 := randomNormalCall key
  let c2 := randomNormalCall c1.2
  (c1.1, c2.1, c2.2)

/-! ## The build-rule file

`src/unnamed/part_002` declares the target `lib` with
`deps = ["//jax:version"] + select(enable_jaxlib_build -> 12 jaxlib targets,
default -> [])`. Targets are modelled as an enumeration named after the
labels in the file. -/

inductive BuildTarget where
  | jax_version
  | jaxlib
  | jaxlib_cpu_feature_guard
  | jaxlib_utils
  | mlir_builtin_dialect
  | mlir_chlo_dialect
  | mlir_func_dialect
  | mlir_ir
  | mlir_mhlo_dialect
  | mlir_ml_program_dialect
  | mlir_pass_manager
  | mlir_sparse_tensor_dialect
  | mlir_stablehlo_dialect
deriving DecidableEq, Repr

/-- The `//jaxlib/mlir:*` dialect/binding labels, in the order they are
listed in the build file. -/
def mlirTargets : List BuildTarget :=
  [.mlir_builtin_dialect, .mlir_chlo_dialect, .mlir_func_dialect, .mlir_ir,
   .mlir_mhlo_dialect, .mlir_ml_program_dialect, .mlir_pass_manager,
   .mlir_sparse_tensor_dialect, .mlir_stablehlo_dialect]

/-- Whether a label is one of the `//jaxlib/mlir:*` targets. -/
def isMlirTarget : BuildTarget → Bool
  | .mlir_builtin_dialect => true
  | .mlir_chlo_dialect => true
  | .mlir_func_dialect => true
  | .mlir_ir => true
  | .mlir_mhlo_dialect => true
  | .mlir_ml_program_dialect => true
  | .mlir_pass_manager => true
  | .mlir_sparse_tensor_dialect => true
  | .mlir_stablehlo_dialect => true
  | _ => false

/-- Whether a label is a compiled-extension or dialect-binding dependency
(everything the `select` adds, as opposed to `//jax:version`). -/
def isCompiledExtTarget (t : BuildTarget) : Bool :=
  t == .jaxlib || t == .jaxlib_cpu_feature_guard || t == .jaxlib_utils ||
    isMlirTarget t

/-- The dependency list of the `lib` target as a function of the
`//jax:enable_jaxlib_build` flag: `//jax:version` plus, when the flag is
enabled, the selected jaxlib and mlir targets in source order. -/
def libDeps (enableJaxlibBuild : Bool) : List BuildTarget :=
  [.jax_version] ++
    (if enableJaxlibBuild then
      [.jaxlib, .jaxlib_cpu_feature_guard, .jaxlib_utils] ++ mlirTargets
     else [])

/-! ## The convolution notebook (`docs/jax-101/03-vectorization.ipynb`)

Arrays are lists of rationals; arithmetic on the recorded inputs is exact. -/

/-- Dot product `jnp.dot` on two vectors. -/
def dotv (a b : List ℚ) : ℚ := (List.zipWith (· * ·) a b).sum

/-- Convolution `convolve x w`: the python loop runs `i` over `range 1 (len x - 1)` and
appends `dot (x[i-1:i+2]) w`; here `j = i - 1` runs over
`range (len x - 2)` and the window is `(x.drop j).take 3`. -/
def convolve (x w : List ℚ) : List ℚ :=
  (List.range (x.length - 2)).map (fun j => dotv ((x.drop j).take 3) w)

/-- Batched loop `manually_batched_convolve`: loop over the batch dimension, convolve each
row pair, and stack the results. -/
def manually_batched_convolve (xs ws : List (List ℚ)) : List (List ℚ) :=
  (List.range xs.length).map (fun i => convolve (xs.getD i []) (ws.getD i []))

/-- Column slice `xs[:, a:a+len]`: slice every row. -/
def sliceCols (xs : List (List ℚ)) (a len : Nat) : List (List ℚ) :=
  xs.map (fun row => (row.drop a).take len)

/-- Elementwise product of two equally shaped matrices. -/
def eltMul (a b : List (List ℚ)) : List (List ℚ) :=
  List.zipWith (List.zipWith (· * ·)) a b

/-- Row sums `jnp.sum (m, axis := 1)`: sum every row. -/
def sumAxis1 (m : List (List ℚ)) : List ℚ := m.map List.sum

/-- Stacking `jnp.stack (cols, axis := 1)`: stacking `k` vectors of length `B` along
axis 1 yields the `B × k` matrix with `result[b][j] = cols[j][b]`. -/
def stackAxis1 (cols : List (List ℚ)) : List (List ℚ) :=
  (List.range (cols.headD []).length).map (fun b => cols.map (fun c => c.getD b 0))

/-- Vectorized loop `manually_vectorized_convolve`: the python loop runs `i` over
`range 1 (xs.shape[-1] - 1)` and appends `sum (xs[:, i-1:i+2] * ws, axis 1)`;
here `j = i - 1`, and `xs.shape[-1]` is the (uniform) row length, read off
the first row. The columns are then stacked along axis 1. -/
def manually_vectorized_convolve (xs ws : List (List ℚ)) : List (List ℚ) :=
  stackAxis1 ((List.range ((xs.headD []).length - 2)).map
    (fun j => sumAxis1 (eltMul (sliceCols xs j 3) ws)))

/-! ## The jitting notebook (`02-jitting.ipynb`): tracing and its failure

Modelled from the spec: `jax.jit` and its tracer live in the external
framework; the spec states that branching a to-be-compiled function on a
value not concretely known at compile time fails with a concretization
error naming the offending argument and call site.  We model tracer values
as expressions over abstract arguments, and the python `bool` conversion of
a traced boolean as the failing step.  The functions `f` and `g` and the
recorded error transcripts are in `src/unnamed/part_001`. -/

/-- The concretization error, carrying the argument the abstract value
depends on, the traced function, and the recorded call-site location. -/
structure ConcretizationTypeError where
  argName : String
  tracedFun : String
  location : String
deriving DecidableEq

/-- A tracer-level value: a concrete constant, an abstract function
argument, or an expression built from them. -/
inductive TracedVal where
  | concrete (v : Int)
  | arg (name : String)
  | add (a b : TracedVal)
  | mul (a b : TracedVal)
deriving DecidableEq

/-- A tracer-level boolean: concrete, or dependent on an argument. -/
inductive TracedBool where
  | concrete (b : Bool)
  | dependsOn (arg : String)
deriving DecidableEq

/-- The argument a traced value depends on, if any. -/
def TracedVal.dependency : TracedVal → Option String
  | .concrete _ => none
  | .arg s => some s
  | .add a b => a.dependency.orElse (fun _ => b.dependency)
  | .mul a b => a.dependency.orElse (fun _ => b.dependency)

/-- Evaluate a traced expression under an assignment of the arguments. -/
def TracedVal.eval (env : String → Int) : TracedVal → Int
  | .concrete v => v
  | .arg s => env s
  | .add a b => a.eval env + b.eval env
  | .mul a b => a.eval env * b.eval env

/-- Comparison `a > b` on traced values: concrete when neither side depends
on an argument, otherwise abstract, recording the dependency. -/
def tracedGt (a b : TracedVal) : TracedBool :=
  match a.dependency, b.dependency with
  | some s, _ => .dependsOn s
  | none, some s => .dependsOn s
  | none, none => .concrete (decide (b.eval (fun _ => 0) < a.eval (fun _ => 0)))

/-- Comparison `a < b` on traced values. -/
def tracedLt (a b : TracedVal) : TracedBool := tracedGt b a

/-- Conversion of a traced boolean to a python `bool` (an `if` or `while`
test): fails with a `ConcretizationTypeError` when the value depends on an
argument, naming that argument and the traced call site. -/
def boolConvert (fn loc : String) :
    TracedBool → Except ConcretizationTypeError Bool
  | .concrete b => .ok b
  | .dependsOn s => .error ⟨s, fn, loc⟩

/-- The call site of `f` recorded in the error transcript. -/
def fLocation : String := "<ipython-input-7-2c1a07641e48>:3"

/-- The call site of `g` recorded in the error transcript. -/
def gLocation : String := "<ipython-input-8-2aa78f448d5d>:3"

/-- Tracing the body of `f` (`if x > 0 then x else 2 * x`) with the
non-static argument `x` abstract. -/
def fTraced : Except ConcretizationTypeError TracedVal :=
  (boolConvert "f" fLocation (tracedGt (.arg "x") (.concrete 0))).bind
    (fun c => if c then .ok (.arg "x") else .ok (.mul (.concrete 2) (.arg "x")))

/-- The traced while-loop of `g` (fuel-bounded; with `n` abstract the
condition test fails on its first evaluation, so the fuel bound is never
reached). -/
def gTracedLoop (fn loc : String) (n : TracedVal) :
    Nat → TracedVal → Except ConcretizationTypeError TracedVal
  | 0, i => .ok i
  | fuel + 1, i =>
    (boolConvert fn loc (tracedLt i n)).bind
      (fun c =>
        if c then gTracedLoop fn loc n fuel (.add i (.concrete 1)) else .ok i)

/-- Tracing the body of `g` (`i = 0; while i < n: i += 1; return x + i`)
with both non-static arguments abstract; `i` starts as the python int `0`. -/
def gTraced : Except ConcretizationTypeError TracedVal :=
  (gTracedLoop "g" gLocation (.arg "n") 1000000 (.concrete 0)).bind
    (fun i => .ok (.add (.arg "x") i))

/-- Calling `jax.jit f` at a concrete input: the tracer runs `f` over an
abstract argument (the input is only wrapped, never consulted); on success
the recorded jaxpr would be evaluated at the input. -/
def f_jit (x : Int) : Except ConcretizationTypeError Int :=
  fTraced.map (fun e => e.eval (fun _ => x))

/-- Calling `jax.jit g` at concrete inputs. -/
def g_jit (x n : Int) : Except ConcretizationTypeError Int :=
  gTraced.map (fun e => e.eval (fun s => if s = "n" then n else x))

/-! ## Python-level `g` and its jitted variants (claim C9) -/

/-- The while-loop of `g` at python level: increment `i` until `i < n`
fails.  Lean accepts the recursion as terminating on `(n - i).toNat`. -/
def gLoop (i n : Int) : Int :=
  if h : i < n then gLoop (i + 1) n else i
termination_by (n - i).toNat
decreasing_by omega

/-- Python-level `g x n`: run the loop from `0`, return `x + i`. -/
def g (x n : Int) : Int := x + gLoop 0 n

/-- Body `loop_body` (jitted; on an integer input the compiled code computes
`prev_i + 1`). -/
def loop_body (prev_i : Int) : Int := prev_i + 1

/-- The loop of `g_inner_jitted`, stepping through the jitted body. -/
def gInnerLoop (i n : Int) : Int :=
  if h : i < n then gInnerLoop (loop_body i) n else i
termination_by (n - i).toNat
decreasing_by simp [loop_body]; omega

/-- Function `g_inner_jitted`: the same python loop with a jitted body. -/
def g_inner_jitted (x n : Int) : Int := x + gInnerLoop 0 n

/-- Modelled from the spec: jitting `g` with `n` static traces the body with
`x` abstract and `n` concrete, so the python while-loop runs to completion
on the concrete `n` and the recorded jaxpr is `x + i` with the final `i` a
constant. -/
def gStaticTrace (n : Int) : TracedVal := .add (.arg "x") (.concrete (gLoop 0 n))

/-- Variant `g_jit_correct = jax.jit (g, static_argnames := [n])`. -/
def g_jit_correct (x n : Int) : Int := (gStaticTrace n).eval (fun _ => x)

/-- Variant `g_jit_decorated` (the `partial (jax.jit, static_argnames)`
decorator applied to the identical body). -/
def g_jit_decorated (x n : Int) : Int := (gStaticTrace n).eval (fun _ => x)

/-! ## The Haiku basics notebook (`haiku/notebooks/basics.ipynb`) -/

/-- A Haiku parameter mapping for `MyLinear1`: the module name maps `w` to a
`j × k` matrix and `b` to a `k`-vector. -/
structure LinearParams where
  w : List (List ℚ)
  b : List ℚ
deriving DecidableEq

/-- Modelled from the spec: `hk.initializers.TruncatedNormal` sampling is
external floating point; the spec only requires the initialization pass to
produce the mapping deterministically from the rng key, so the entries are
modelled as a deterministic function of the key via the Threefry word
stream. -/
def truncNormalInit (rng : List Nat) (j k : Nat) : List (List ℚ) :=
  (List.range j).map (fun r =>
    (List.range k).map (fun c =>
      ((threefry2x32 (keyPair rng) (List.range (j * k))).getD (r * k + c) 0 : ℚ)
        / (M32 : ℚ)))

/-- Initialization `forward_linear1.init rng x` for `MyLinear1` with
`output_size = 2`: `w` of shape `[j, 2]` with `j = x.shape[-1]` from the
truncated-normal initializer, `b` of shape `[2]` from `jnp.ones` (exact). -/
def forwardLinear1Init (rng : List Nat) (x : List (List ℚ)) : LinearParams :=
  { w := truncNormalInit rng (x.headD []).length 2
    b := List.replicate 2 1 }

/-- Column `c` of a matrix. -/
def matCol (w : List (List ℚ)) (c : Nat) : List ℚ := w.map (fun row => row.getD c 0)

/-- The module body `jnp.dot x w + b` on a batch of row vectors. -/
def linApply (p : LinearParams) (x : List (List ℚ)) : List (List ℚ) :=
  x.map (fun row =>
    (List.range p.b.length).map (fun c => dotv row (matCol p.w c) + p.b.getD c 0))

/-- Application `forward_linear1.apply params x rng`: a pure function of the
explicitly threaded mapping and the input (the rng is not consumed by this
non-stochastic module); it returns the output together with the params as
they stand after the call — unchanged, modelled from the spec: apply threads
the mapping explicitly and never writes it. -/
def forwardLinear1Apply (p : LinearParams) (x : List (List ℚ)) (rng : List Nat) :
    List (List ℚ) × LinearParams := (linApply p x, p)

/-- Mutation `jax.tree_util.tree_map (fun x => x + 1) params`. -/
def mutateParams (p : LinearParams) : LinearParams :=
  ⟨p.w.map (fun row => row.map (· + 1)), p.b.map (· + 1)⟩

/-- The recorded initialized mapping for `rng = PRNGKey 42` and a 3-feature
input, read off the notebook transcript (decimal literals are exact in `ℚ`). -/
def recordedParams : LinearParams :=
  ⟨[[-0.30350363, 0.5123802], [0.08009142, -0.3163005], [0.6056666, 0.5820702]],
   [1, 1]⟩

/-- Recorded input `sample_x = [[1., 2., 3.]]`. -/
def sampleX : List (List ℚ) := [[1, 2, 3]]

/-- The stateful counter body `stateful_f`: read `counter` from the state,
read `multiplier` from the params, write `counter + 1` back, and return
`x + multiplier * counter`.  Arrays of one element are modelled by their
scalar. -/
def statefulApply (multiplier : ℚ) (counter : ℤ) (x : ℚ) : ℚ × ℤ :=
  (x + multiplier * (counter : ℚ), counter + 1)

/-- Initialization of the stateful module: `multiplier = jnp.ones [1]` and
`counter = jnp.ones []` (exact), i.e. params `1` and state `1`. -/
def statefulInit : ℚ × ℤ := (1, 1)

/-- Iterating `stateful_forward.apply` `k` times from state `counter`,
threading the returned state and collecting the outputs in order. -/
def statefulIter (multiplier : ℚ) (x : ℚ) (counter : ℤ) : Nat → List ℚ × ℤ
  | 0 => ([], counter)
  | k + 1 =>
    let step := statefulApply multiplier counter x
    let rest := statefulIter multiplier x step.2 k
    (step.1 :: rest.1, rest.2)

/-- Modelled from the spec: one `bernoulli` sample, by its underlying
Threefry bit word (the float threshold comparison is external). -/
def bernoulliSample (key : List Nat) : Nat :=
  (threefry2x32 (keyPair key) (List.range 1)).getD 0 0

/-- Modelled from the spec: `forward.apply params x rng` for the stochastic
`HkRandomNest` module (which owns no parameters): Haiku derives the two
module rng keys from the apply rng by splitting, and each bernoulli sample
is a deterministic function of its key; the call returns the two samples. -/
def forwardStochApply (params : Unit) (x : ℚ) (rng : List Nat) : Nat × Nat :=
  (bernoulliSample ((randomSplit rng 2).getD 0 []),
   bernoulliSample ((randomSplit rng 2).getD 1 []))

/-- The `for _ in range(3): forward.apply(params, x=x, rng=rng_key)` cell:
three calls with the same rng key, collected in order. -/
def runThreeApplies (rng : List Nat) : List (Nat × Nat) :=
  [forwardStochApply () 1 rng, forwardStochApply () 1 rng,
   forwardStochApply () 1 rng]

/-! ## Supporting lemmas -/

/-- The cipher emits exactly one word per counter. -/
theorem threefry2x32_length (key : Nat × Nat) (cs : List Nat) :
    (threefry2x32 key cs).length = cs.length := by
  unfold threefry2x32
  by_cases hodd : cs.length % 2 = 1 <;>
    simp [hodd, List.length_zipWith] <;> omega

/-- Pair grouping halves the length. -/
theorem chunk2_length : ∀ l : List Nat, (chunk2 l).length = l.length / 2
  | [] => by simp [chunk2]
  | [_] => by simp [chunk2]
  | _ :: _ :: rest => by
    simp [chunk2, chunk2_length rest]
    omega

/-- Every group produced by `chunk2` has two words. -/
theorem chunk2_mem : ∀ (l : List Nat) (k : List Nat), k ∈ chunk2 l → k.length = 2
  | [], _, h => by simp [chunk2] at h
  | [_], _, h => by simp [chunk2] at h
  | a :: b :: rest, k, h => by
    rcases (by simpa [chunk2] using h : k = [a, b] ∨ k ∈ chunk2 rest) with h' | h'
    · simp [h']
    · exact chunk2_mem rest k h'

/-! ## Claim theorems -/

/-- C1 counterexample: with the flag enabled, the dependency list of `lib`
contains nine `//jaxlib/mlir:*` dialect/binding targets, not eight as the
claim counts them. -/
theorem C1_counterexample :
    (libDeps true).countP (fun t => isMlirTarget t) = 9 ∧
      ¬ (libDeps true).countP (fun t => isMlirTarget t) = 8 := by
  decide

/-- C1 (amended): with `//jax:enable_jaxlib_build` enabled, the dependency
list of `lib` is `//jax:version` followed by `//jaxlib`,
`//jaxlib:cpu_feature_guard`, `//jaxlib:utils` and the nine
`//jaxlib/mlir:*` dialect/binding targets; with the flag disabled it is
exactly `[//jax:version]`, containing no compiled-extension or
dialect-binding dependency. -/
theorem C1_lib_deps :
    (libDeps true =
        [.jax_version, .jaxlib, .jaxlib_cpu_feature_guard, .jaxlib_utils] ++
          mlirTargets ∧
      mlirTargets.length = 9 ∧ ∀ t ∈ mlirTargets, isMlirTarget t = true) ∧
    (libDeps false = [.jax_version] ∧
      ∀ t ∈ libDeps false, isCompiledExtTarget t = false) := by
  decide

/-- C7: `convolve` on the recorded inputs `x = arange 5`, `w = [2, 3, 4]`
returns the recorded transcript `[11, 20, 29]`, a length-3 array whose entry
`i` is the dot product of the window `x[i..i+2]` with `w`, exactly. -/
theorem C7_convolve_transcript :
    convolve [0, 1, 2, 3, 4] [2, 3, 4] = [11, 20, 29] ∧
    (convolve [0, 1, 2, 3, 4] [2, 3, 4]).length = 3 ∧
    ∀ i : Fin 3,
      (convolve [0, 1, 2, 3, 4] [2, 3, 4]).getD i 0 =
        dotv ((([0, 1, 2, 3, 4] : List ℚ).drop i).take 3) [2, 3, 4] := by
  refine ⟨?_, ?_, ?_⟩
  · norm_num [convolve, dotv, List.range_succ]
  · norm_num [convolve]
  · intro i
    fin_cases i <;> norm_num [convolve, dotv, List.range_succ]

/-- C10: JAX sampling has no sequential equivalence: for `key = PRNGKey 42`,
stacking the three scalar samples drawn through the split subkeys differs
from the single batched three-sample draw (their underlying Threefry bit
streams differ, matching the two differing recorded output arrays). -/
theorem C10_no_sequential_equivalence :
    (randomSplit (PRNGKey 42) 3).map normalSample ≠
      normalBits (PRNGKey 42) 3 := by
  decide

/-- C4: `random.split` is a deterministic function of its key producing new
fixed-size tokens: `PRNGKey 42 = [0, 42]`; `split` on it yields exactly the
two recorded keys; `split key num` always yields exactly `num` keys (so
`num = 43` yields 43), each of shape `(2,)`; at the notebook key the output
keys are distinct from the input and from one another (for the default
split and for `num = 43`); and splitting the same key twice yields the same
outputs. -/
theorem C4_random_split
    (key : List Nat) (num : Nat) (k : List Nat)
    (hk : k ∈ randomSplit key num) :
    PRNGKey 42 = [0, 42] ∧
    randomSplit (PRNGKey 42) 2 =
      [[2465931498, 3679230171], [255383827, 267815257]] ∧
    (randomSplit key num).length = num ∧
    (randomSplit (PRNGKey 42) 43).length = 43 ∧
    k.length = 2 ∧
    (PRNGKey 42 :: randomSplit (PRNGKey 42) 2).Nodup ∧
    (PRNGKey 42 :: randomSplit (PRNGKey 42) 43).Nodup ∧
    randomSplit key num = randomSplit key num := by
  refine ⟨by decide, by decide, ?_, by decide, ?_, by decide, by decide, rfl⟩
  · simp [randomSplit, chunk2_length, threefry2x32_length]
  · exact chunk2_mem _ k hk

/-- C4 witness: the theorem applied to the notebook key, `num = 2`, and the
first recorded subkey. -/
theorem C4_random_split_witness :
    ([2465931498, 3679230171] ∈ randomSplit (PRNGKey 42) 2) ∧
      (randomSplit (PRNGKey 42) 2).length = 2 :=
  ⟨by decide,
   (C4_random_split (PRNGKey 42) 2 [2465931498, 3679230171] (by decide)).2.2.1⟩

/-- C2: jitting a function that branches on a non-static argument fails
with a `ConcretizationTypeError` naming the offending argument and the
traced function with its call site: `f` (branching on `x > 0`) fails naming
`x` and `f` at its recorded location, and `g` (whose while-loop tests
`i < n`) fails naming `n` and `g` at its recorded location, for every
concrete input. -/
theorem C2_concretization_errors :
    (∀ x : Int, f_jit x = .error ⟨"x", "f", fLocation⟩) ∧
    (∀ x n : Int, g_jit x n = .error ⟨"n", "g", gLocation⟩) :=
  ⟨fun _ => rfl, fun _ _ => rfl⟩

/-- C3: sampling is a deterministic function of the key and never mutates
it: the two-call cell prints the identical sample twice and leaves the key
unchanged, and three `forward.apply` calls with the same rng key return the
identical stochastic output each time. -/
theorem C3_sampling_pure :
    (∀ key, (runTwoNormalCalls key).1 = (runTwoNormalCalls key).2.1 ∧
      (runTwoNormalCalls key).2.2 = key) ∧
    (∀ rng, runThreeApplies rng =
      List.replicate 3 (forwardStochApply () 1 rng)) :=
  ⟨fun _ => ⟨rfl, rfl⟩, fun _ => rfl⟩

/-- Threading the state through `k` applies adds `k` to the counter. -/
theorem statefulIter_counter (m x : ℚ) :
    ∀ (k : Nat) (c : ℤ), (statefulIter m x c k).2 = c + k
  | 0, c => by simp [statefulIter]
  | k + 1, c => by
    simp [statefulIter, statefulApply, statefulIter_counter m x k (c + 1)]
    ring

/-- The output of the `j`-th apply (0-indexed) from counter `c` is
`x + m * (c + j)`. -/
theorem statefulIter_outputs (m x : ℚ) :
    ∀ (k : Nat) (c : ℤ),
      (statefulIter m x c k).1 =
        (List.range k).map (fun (j : Nat) => x + m * ((c : ℚ) + (j : ℚ)))
  | 0, c => by simp [statefulIter]
  | k + 1, c => by
    rw [List.range_succ_eq_map]
    simp only [statefulIter, statefulApply, statefulIter_outputs m x k (c + 1),
      List.map_cons, List.map_map, List.cons.injEq]
    refine ⟨by push_cast; ring, ?_⟩
    refine List.map_congr_left (fun j _ => ?_)
    simp only [Function.comp_apply]
    push_cast
    ring

/-- C6: the stateful counter: init gives params `multiplier = 1` and state
`counter = 1`; every apply returns `x + multiplier * counter` (the counter
before the call) and increments the counter by exactly one; hence after `k`
applies the counter is `k + 1`, and with `x = 5` the `j`-th output
(0-indexed) is `6 + j`, i.e. the outputs over three iterations are
`[6, 7, 8]` with final counter `4`. -/
theorem C6_stateful_counter :
    statefulInit = (1, 1) ∧
    (∀ (m : ℚ) (c : ℤ) (x : ℚ),
      statefulApply m c x = (x + m * (c : ℚ), c + 1)) ∧
    (∀ k : Nat, (statefulIter 1 5 1 k).2 = k + 1) ∧
    (∀ k : Nat, (statefulIter 1 5 1 k).1 =
      (List.range k).map (fun (j : Nat) => 6 + (j : ℚ))) ∧
    statefulIter 1 5 1 3 = ([6, 7, 8], 4) := by
  refine ⟨rfl, fun _ _ _ => rfl, fun k => ?_, fun k => ?_, ?_⟩
  · rw [statefulIter_counter]; ring
  · rw [statefulIter_outputs]
    refine List.map_congr_left (fun j _ => ?_)
    push_cast; ring
  · refine Prod.ext ?_ ?_
    · rw [statefulIter_outputs]
      norm_num [List.range_succ]
    · rw [statefulIter_counter]
      norm_num

/-- The python while-loop of `g` computes `max n i` from start `i`. -/
theorem gLoop_eq (i n : Int) : gLoop i n = max n i := by
  induction i, n using gLoop.induct with
  | case1 i n h ih =>
    rw [gLoop]
    simp only [h, dif_pos]
    omega
  | case2 i n h =>
    rw [gLoop]
    simp only [h, dif_neg, not_false_iff]
    omega

/-- The inner-jitted loop steps exactly like the python loop. -/
theorem gInnerLoop_eq (i n : Int) : gInnerLoop i n = gLoop i n := by
  induction i, n using gInnerLoop.induct with
  | case1 i n h ih =>
    rw [gInnerLoop, gLoop]
    simp only [h, dif_pos, loop_body] at ih ⊢
    exact ih
  | case2 i n h =>
    rw [gInnerLoop, gLoop]
    simp [h]

/-- C9: the python-level `g` terminates on every integer input (the
recursion is accepted on the measure `(n - i).toNat`) and returns
`x + max n 0`; the variants `g_inner_jitted`, `g_jit_correct` (with `n`
static) and `g_jit_decorated` compute the same value; in particular all
four return `30` on input `(10, 20)`. -/
theorem C9_g_and_variants :
    (∀ x n : Int, g x n = x + max n 0) ∧
    (∀ x n : Int, g_inner_jitted x n = g x n) ∧
    (∀ x n : Int, g_jit_correct x n = g x n) ∧
    (∀ x n : Int, g_jit_decorated x n = g x n) ∧
    g 10 20 = 30 ∧ g_inner_jitted 10 20 = 30 ∧ g_jit_correct 10 20 = 30 ∧
      g_jit_decorated 10 20 = 30 := by
  have hg : ∀ x n : Int, g x n = x + max n 0 := by
    intro x n
    rw [g, gLoop_eq]
  have hinner : ∀ x n : Int, g_inner_jitted x n = g x n := by
    intro x n
    rw [g_inner_jitted, gInnerLoop_eq, g]
  have hstatic : ∀ x n : Int, g_jit_correct x n = g x n := fun _ _ => rfl
  have hdec : ∀ x n : Int, g_jit_decorated x n = g x n := fun _ _ => rfl
  refine ⟨hg, hinner, hstatic, hdec, ?_, ?_, ?_, ?_⟩
  · rw [hg]; norm_num
  · rw [hinner, hg]; norm_num
  · rw [hstatic, hg]; norm_num
  · rw [hdec, hg]; norm_num

/-- C5: the transformed linear module: init for the 3-feature input
produces the nested mapping with `w` of shape `[3, 2]` and `b` of shape
`[2]`; apply is a pure function of the explicitly threaded mapping and the
input — a second call with the mapping returned by the first (unchanged)
and the same input yields the identical output, and the call leaves the
mapping unchanged; and applying with the mutated mapping (every array entry
incremented by 1) yields a different output for the same input. -/
theorem C5_linear_module :
    (forwardLinear1Init (PRNGKey 42) sampleX).w.length = 3 ∧
    (forwardLinear1Init (PRNGKey 42) sampleX).w.map List.length = [2, 2, 2] ∧
    (forwardLinear1Init (PRNGKey 42) sampleX).b.length = 2 ∧
    (∀ (p : LinearParams) (x : List (List ℚ)) (rng : List Nat),
      (forwardLinear1Apply p x rng).2 = p ∧
      (forwardLinear1Apply (forwardLinear1Apply p x rng).2 x rng).1 =
        (forwardLinear1Apply p x rng).1) ∧
    linApply (mutateParams recordedParams) sampleX ≠
      linApply recordedParams sampleX := by
  refine ⟨?_, ?_, ?_, fun _ _ _ => ⟨rfl, rfl⟩, ?_⟩
  · simp [forwardLinear1Init, truncNormalInit, sampleX]
  · simp [forwardLinear1Init, truncNormalInit, sampleX, List.range_succ]
  · simp [forwardLinear1Init]
  · norm_num [linApply, dotv, matCol, mutateParams, recordedParams, sampleX,
      List.range_succ]

/-- Entry `b` of the column that the vectorized loop builds for window
start `j` is the dot product of row `b`'s window with row `b` of `ws`. -/
theorem colEntry (xs ws : List (List ℚ)) (j b : Nat)
    (hb : b < xs.length) (hbw : b < ws.length) :
    (sumAxis1 (eltMul (sliceCols xs j 3) ws)).getD b 0 =
      dotv (((xs.getD b []).drop j).take 3) (ws.getD b []) := by
  have hlen : b < (eltMul (sliceCols xs j 3) ws).length := by
    simp only [eltMul, List.length_zipWith, sliceCols, List.length_map]
    omega
  have hlen2 : b < (sumAxis1 (eltMul (sliceCols xs j 3) ws)).length := by
    simpa [sumAxis1] using hlen
  rw [List.getD_eq_getElem _ _ hlen2, List.getD_eq_getElem _ _ hb,
    List.getD_eq_getElem _ _ hbw]
  simp only [sumAxis1, eltMul, sliceCols, dotv, List.getElem_map,
    List.getElem_zipWith]

/-- Length of each column built by the vectorized loop. -/
theorem colLength (xs ws : List (List ℚ)) (j : Nat) :
    (sumAxis1 (eltMul (sliceCols xs j 3) ws)).length =
      min xs.length ws.length := by
  simp [sumAxis1, eltMul, sliceCols, List.length_zipWith]

/-- C8: on every well-shaped batch (`B` rows of length `n ≥ 3` in `xs`,
`B` rows of length 3 in `ws`), the loop-over-batch implementation and the
manually vectorized implementation agree, and row `i` of the batched result
is `convolve xs[i] ws[i]`. -/
theorem C8_vectorized_agrees_with_batched
    (xs ws : List (List ℚ)) (n : Nat)
    (hn : 3 ≤ n)
    (hB : ws.length = xs.length)
    (hx : ∀ row ∈ xs, row.length = n)
    (hw : ∀ row ∈ ws, row.length = 3) :
    manually_vectorized_convolve xs ws = manually_batched_convolve xs ws ∧
    ∀ i : Nat, (manually_batched_convolve xs ws).getD i [] =
      convolve (xs.getD i []) (ws.getD i []) := by
  constructor
  · rcases xs with _ | ⟨x0, xtl⟩
    · rfl
    · have hn0 : (((x0 :: xtl).headD []).length) = n := by
        simpa using hx x0 (by simp)
      have hx0 : x0.length = n := hx x0 (by simp)
      rw [manually_vectorized_convolve, manually_batched_convolve]
      have hrange : (x0 :: xtl).headD [] = x0 := rfl
      rw [hrange, hx0]
      obtain ⟨m, hm⟩ : ∃ m, n - 2 = m + 1 := ⟨n - 3, by omega⟩
      have hhead :
          ((List.range (n - 2)).map
              (fun (j : Nat) =>
                sumAxis1 (eltMul (sliceCols (x0 :: xtl) j 3) ws))).headD []
            = sumAxis1 (eltMul (sliceCols (x0 :: xtl) 0 3) ws) := by
        rw [hm, List.range_succ_eq_map]
        simp
      apply List.ext_getElem
      · simp only [stackAxis1, List.length_map, List.length_range, hhead,
          colLength, hB]
        omega
      · intro b h1 h2
        simp only [stackAxis1, List.getElem_map, List.getElem_range,
          List.map_map]
        have hb : b < (x0 :: xtl).length := by
          simpa using h2
        have hbw : b < ws.length := by omega
        have hrow : ((x0 :: xtl).getD b []).length = n := by
          apply hx
          rw [List.getD_eq_getElem _ _ hb]
          exact List.getElem_mem hb
        rw [convolve, hrow]
        refine List.map_congr_left (fun j hj => ?_)
        simp only [Function.comp_apply]
        exact colEntry (x0 :: xtl) ws j b hb hbw
  · intro i
    by_cases h : i < xs.length
    · rw [manually_batched_convolve,
        List.getD_eq_getElem _ _ (by simpa using h)]
      simp
    · have h1 : (manually_batched_convolve xs ws).length ≤ i := by
        simp only [manually_batched_convolve, List.length_map,
          List.length_range]
        omega
      have h2 : xs.length ≤ i := by omega
      have h3 : ws.length ≤ i := by omega
      rw [List.getD_eq_default _ _ h1, List.getD_eq_default _ _ h2]
      simp [convolve]

/-- C8 witness: the theorem applied to the notebook batch
`xs = [arange 5, arange 5]`, `ws = [[2,3,4], [2,3,4]]`, `n = 5`. -/
theorem C8_witness :
    manually_vectorized_convolve [[0, 1, 2, 3, 4], [0, 1, 2, 3, 4]]
        [[2, 3, 4], [2, 3, 4]] =
      manually_batched_convolve [[0, 1, 2, 3, 4], [0, 1, 2, 3, 4]]
        [[2, 3, 4], [2, 3, 4]] :=
  (C8_vectorized_agrees_with_batched
    [[0, 1, 2, 3, 4], [0, 1, 2, 3, 4]] [[2, 3, 4], [2, 3, 4]] 5
    (by norm_num) (by norm_num) (by decide) (by decide)).1

end JaxSpec
